import Mathlib

/-!
Verification of the VoiceFlow client core (static/script.js, the
recorder-processor worklet, and the script variants) against its
natural-language specification.

The JavaScript is shallowly embedded:
* floating-point samples are modelled exactly as rationals (`ℚ`);
* byte buffers (`ArrayBuffer`/`Uint8Array`) are `List Nat` with each
  entry `< 256`;
* the module-level mutable variables of the script become explicit
  state records, and each event handler becomes a state-transition
  function;
* browser builtins keep their documented semantics: `DataView.setInt16`
  truncates its argument toward zero and stores two's complement
  little-endian, `JSON.parse` throws on malformed input,
  `base64ToArrayBuffer` is order- and content-preserving per chunk, so
  inbound audio events carry the already-decoded chunk bytes.
-/

namespace VoiceFlow

/-! ## Frame encoder (script.js `floatTo16BitPCM`, identical in the
recorder-processor worklet) -/

/-- Clamping of one sample, from `Math.max(-1, Math.min(1, float32Array[i]))`. -/
def clamp (x : ℚ) : ℚ := max (-1) (min 1 x)

/-- Scaling of one clamped sample, from `s < 0 ? s * 0x8000 : s * 0x7FFF`. -/
def scalePCM (s : ℚ) : ℚ := if s < 0 then s * 32768 else s * 32767

/-- Truncation toward zero, the conversion `DataView.setInt16` applies to a
non-integral JavaScript number (ToIntegerOrInfinity). For `q < 0` the
truncation is the ceiling, written here as `-⌊-q⌋`. -/
def jsTruncate (q : ℚ) : ℤ := if q < 0 then -(⌊-q⌋) else ⌊q⌋

/-- The signed 16-bit value stored for one input sample: clamp, scale,
truncate. -/
def pcmSampleValue (x : ℚ) : ℤ := jsTruncate (scalePCM (clamp x))

/-- Two's-complement little-endian layout of a 16-bit store
(`view.setInt16(i * 2, v, true)`): the value reduced mod 2^16, low byte
first. -/
def int16Bytes (v : ℤ) : List Nat :=
  let u : Nat := (v % 65536).toNat
  [u % 256, u / 256]

/-- script.js `floatTo16BitPCM`: a 2-bytes-per-sample buffer, sample `i`
written at offset `2*i`. The loop writing consecutive disjoint 2-byte
blocks is embedded as a `flatMap`. -/
def floatTo16BitPCM (float32Array : List ℚ) : List Nat :=
  float32Array.flatMap (fun x => int16Bytes (pcmSampleValue x))

/-- Reading back the signed 16-bit little-endian value stored at sample
index `i` (offset `2*i`) of a byte buffer. -/
def readInt16LE (l : List Nat) (i : Nat) : ℤ :=
  let u : Nat := l.getD (2 * i) 0 + 256 * l.getD (2 * i + 1) 0
  if u < 32768 then (u : ℤ) else (u : ℤ) - 65536

/-- Modelled from the spec: the decoder is not part of the repository
(playback decoding happens inside the browser's `decodeAudioData`), so
the spec's words "decoding each stored 16-bit value back to floating
point" are modelled as the inverse of the Frame Encoder's scaling:
negative stored values divide by 32768, non-negative ones by 32767. -/
def decodePCMSample (v : ℤ) : ℚ := if v < 0 then (v : ℚ) / 32768 else (v : ℚ) / 32767

/-- The claim's per-sample encoding, written from the spec's words:
"sample i is first clamped to [-1,1] and then ... negative clamped
values are scaled by 32768 and non-negative clamped values by 32767",
stored as a signed 16-bit integer. -/
def specEncodeSample (x : ℚ) : ℤ :=
  let c := max (-1) (min 1 x)
  if c < 0 then jsTruncate (c * 32768) else jsTruncate (c * 32767)

/-- Low byte of the claim's little-endian 16-bit store for sample `x`. -/
def specLowByte (x : ℚ) : Nat := ((specEncodeSample x) % 65536).toNat % 256

/-- High byte of the claim's little-endian 16-bit store for sample `x`. -/
def specHighByte (x : ℚ) : Nat := ((specEncodeSample x) % 65536).toNat / 256

/-! ## WAV packaging (script.js `createWavFile`, `writeString`) -/

/-- script.js `writeString(view, offset, s)`: the ASCII codes of `s`
written at consecutive offsets, embedded as the byte list the writes
produce. -/
def writeString (s : String) : List Nat := s.data.map Char.toNat

/-- Little-endian byte layout of `view.setUint16(offset, v, true)`. -/
def u16le (v : Nat) : List Nat := [v % 256, v / 256 % 256]

/-- Little-endian byte layout of `view.setUint32(offset, v, true)`. -/
def u32le (v : Nat) : List Nat :=
  [v % 256, v / 256 % 256, v / 65536 % 256, v / 16777216 % 256]

/-- script.js `createWavFile`: the constants of its header. -/
def sampleRate : Nat := 44100

/-- script.js `createWavFile`: `numChannels = 1`. -/
def numChannels : Nat := 1

/-- script.js `createWavFile`: `bitsPerSample = 16`. -/
def bitsPerSample : Nat := 16

/-- script.js `createWavFile`: `blockAlign = (numChannels * bitsPerSample) / 8`. -/
def blockAlign : Nat := numChannels * bitsPerSample / 8

/-- script.js `createWavFile`: `byteRate = sampleRate * blockAlign`. -/
def byteRate : Nat := sampleRate * blockAlign

/-- script.js `createWavFile`: the 44-byte RIFF/WAVE header followed by the
payload. The `DataView` writes cover offsets 0..43 consecutively and
disjointly, so the buffer is their concatenation followed by the copy of
the audio data at offset 44. -/
def createWavFile (audioDataBuffer : List Nat) : List Nat :=
  let dataSize := audioDataBuffer.length
  writeString "RIFF" ++ u32le (36 + dataSize) ++ writeString "WAVE" ++
  writeString "fmt " ++ u32le 16 ++ u16le 1 ++ u16le numChannels ++
  u32le sampleRate ++ u32le byteRate ++ u16le blockAlign ++ u16le bitsPerSample ++
  writeString "data" ++ u32le dataSize ++ audioDataBuffer

/-- Unsigned 16-bit little-endian read at byte offset `off`. -/
def readU16le (l : List Nat) (off : Nat) : Nat :=
  l.getD off 0 + 256 * l.getD (off + 1) 0

/-- Unsigned 32-bit little-endian read at byte offset `off`. -/
def readU32le (l : List Nat) (off : Nat) : Nat :=
  l.getD off 0 + 256 * l.getD (off + 1) 0 + 65536 * l.getD (off + 2) 0 +
    16777216 * l.getD (off + 3) 0

/-! ## Turn assembly: `socket.onmessage` of script.js and its state
variables (`audioQueue`, `isPlaying`, `currentAssistantMessageSpan`,
`tempTranscriptSpan`, the conversation log) -/

/-- Message role, from the `user-message` / `assistant-message` CSS classes. -/
inductive Role
  | user
  | assistant
deriving DecidableEq, Repr

/-- One message element of `conversationDiv`: its role label and the text
content of its span. -/
structure Msg where
  role : Role
  text : String
deriving DecidableEq, Repr

/-- Inbound events, the classified payloads of `socket.onmessage`
(discriminated on `result.type`), plus `reconnect`, the composite
transition `socket.onclose` → `setTimeout(initializeSession, 3000)` →
`connectWebSocket` → `socket.onopen`. An `audio` event carries the chunk
bytes that `base64ToArrayBuffer(result.audio_chunk)` produces. -/
inductive InEvent
  | history (data : List Msg)
  | transcript (text : String) (isFinal : Bool)
  | llmResponse (chunk : String)
  | audio (chunk : List Nat)
  | llmResponseEnd
  | reconnect
deriving DecidableEq, Repr

/-- The module-level mutable state of script.js that the message handler
touches. `spanIdx` is the position in `messages` of the element
`currentAssistantMessageSpan` lives in (`none` when the variable is null);
`tempTranscript` is `tempTranscriptSpan`; `playedPayload` records the
concatenated buffer handed to `createWavFile` when a playback started. -/
structure ClientState where
  messages : List Msg
  spanIdx : Option Nat
  tempTranscript : Option String
  audioQueue : List (List Nat)
  isPlaying : Bool
  playedPayload : Option (List Nat)
deriving DecidableEq, Repr

/-- script.js `displayMessage(role, text)`: appends a message element
unless the text is empty (`if (!text) return`). -/
def displayMessage (msgs : List Msg) (role : Role) (text : String) : List Msg :=
  if text = "" then msgs else msgs ++ [⟨role, text⟩]

/-- `currentAssistantMessageSpan.textContent += chunk` on the span sitting
inside message `i`. -/
def spanAppend (msgs : List Msg) (i : Nat) (chunk : String) : List Msg :=
  msgs.set i ⟨(msgs.getD i ⟨Role.assistant, ""⟩).role,
              (msgs.getD i ⟨Role.assistant, ""⟩).text ++ chunk⟩

/-- script.js `concatBuffers(buffers)`: total length allocation followed by
an in-order copy of every buffer at increasing offsets, i.e. left-to-right
concatenation. -/
def concatBuffers (buffers : List (List Nat)) : List Nat :=
  buffers.foldl (· ++ ·) []

/-- script.js `processAndPlayAudioQueue` (success path of
`decodeAudioData`): early return when already playing or the queue is
empty; otherwise mark playing, concatenate the queue, hand the
concatenation to `createWavFile`, and clear the queue. -/
def processAndPlayAudioQueue (s : ClientState) : ClientState :=
  if s.isPlaying || s.audioQueue.isEmpty then s
  else { s with isPlaying := true,
                playedPayload := some (concatBuffers s.audioQueue),
                audioQueue := [] }

/-- One `socket.onmessage` dispatch (script.js lines 347-398), plus the
`reconnect` transition: `socket.onclose` schedules `initializeSession`,
which re-reads the same session id from the URL and reopens the socket;
`socket.onopen` then sends the session-identifying control message. None
of that code touches `audioQueue`, the spans, or `isPlaying`, so
`reconnect` leaves this state unchanged. -/
def step (s : ClientState) (e : InEvent) : ClientState :=
  match e with
  | .history data =>
      { s with messages := data.foldl (fun acc m => displayMessage acc m.role m.text) [],
               spanIdx := none }
  | .transcript t true =>
      { s with tempTranscript := none,
               messages := displayMessage s.messages Role.user t }
  | .transcript _ false => s
  | .llmResponse c =>
      match s.spanIdx with
      | none => { s with messages := s.messages ++ [⟨Role.assistant, c⟩],
                         spanIdx := some s.messages.length }
      | some i => { s with messages := spanAppend s.messages i c }
  | .audio chunk => { s with audioQueue := s.audioQueue ++ [chunk] }
  | .llmResponseEnd =>
      let s' := { s with spanIdx := none }
      if s'.audioQueue.isEmpty then s' else processAndPlayAudioQueue s'
  | .reconnect => s

/-- Processing a sequence of inbound events in arrival order. -/
def runTurn (s : ClientState) (events : List InEvent) : ClientState :=
  events.foldl step s

/-- The state right after `connectWebSocket` first runs: empty log, null
spans, empty queue, nothing playing. -/
def clientInit : ClientState :=
  ⟨[], none, none, [], false, none⟩

/-- A quiescent state in which a new turn begins: some conversation log is
displayed, both span variables are null, the audio queue is empty and
nothing is playing. -/
def turnStart (m0 : List Msg) : ClientState :=
  ⟨m0, none, none, [], false, none⟩

/-- The event sequence of one turn as the claim shapes it: non-final
transcripts, the final transcript, the response chunks, the audio chunks,
then the terminating `llm_response_end`. -/
def turnEvents (ts : List String) (t : String) (cs : List String)
    (as' : List (List Nat)) : List InEvent :=
  ts.map (InEvent.transcript · false) ++ [InEvent.transcript t true] ++
  cs.map InEvent.llmResponse ++ as'.map InEvent.audio ++ [InEvent.llmResponseEnd]

/-- Concatenation of the streamed response chunks in arrival order. -/
def strConcat (l : List String) : String := l.foldr (· ++ ·) ""

/-- A raw inbound socket message: either well-formed JSON that classifies
into an event, or malformed text. -/
inductive RawMessage
  | malformed (raw : String)
  | wellFormed (e : InEvent)

/-- The full `socket.onmessage` handler including the parse:
`const result = JSON.parse(event.data)` runs with no try/catch around it,
and `JSON.parse` throws a SyntaxError on malformed input, so the
exception escapes the handler (`Except.error`); nothing in the handler
logs or classifies it. -/
def onmessageHandler (s : ClientState) (m : RawMessage) : Except String ClientState :=
  match m with
  | .malformed raw => .error raw
  | .wellFormed e => .ok (step s e)

/-- The event sequence of test property 5: a turn interrupted by a
connection drop after its final transcript and one audio fragment, the
reconnect (the server re-sends history on the new connection), then a
fresh complete turn. -/
def reconnectScenario : List InEvent :=
  [.transcript "hi" true, .audio [1, 2], .reconnect, .history [⟨Role.user, "hi"⟩],
   .transcript "again" true, .llmResponse "x", .audio [3], .llmResponseEnd]

/-! ## Barge-in monitor (script.js `monitorMicVolume` / `checkVolume`) -/

/-- script.js `BARGE_IN_THRESHOLD = 20`. -/
def BARGE_IN_THRESHOLD : ℚ := 20

/-- Outbound control messages (`socket.send(JSON.stringify(...))`). -/
inductive OutMsg
  | interrupt
  | sessionInit (sessionId : String)
deriving DecidableEq, Repr

/-- The state `checkVolume` reads and writes: playback state, the open
socket, and whether the passive monitor is live
(`passiveMonitoringId` set, passive stream and context open). -/
structure MonState where
  isPlaying : Bool
  audioQueue : List (List Nat)
  playbackCtxOpen : Bool
  socketOpen : Bool
  monitoring : Bool
deriving DecidableEq, Repr

/-- What one monitor step produced: the new state, the control messages
sent, whether `startRecording()` was invoked, and whether another
animation frame was scheduled. -/
structure MonResult where
  state : MonState
  sent : List OutMsg
  startedRecording : Bool
  scheduledNext : Bool
deriving DecidableEq, Repr

/-- One `checkVolume` step of script.js `monitorMicVolume`, with `bins`
the analyser's frequency data (`Uint8Array` values, summed as JavaScript
numbers, hence the exact rational average). Above the threshold it stops
passive listening, tears playback down when playing (close the context,
clear the queue, unset `isPlaying`, send the interrupt control message on
an open socket), calls `startRecording()` and returns without scheduling;
otherwise it only schedules the next frame. -/
def checkVolume (bins : List Nat) (s : MonState) : MonResult :=
  let averageVolume : ℚ := ((bins.foldl (· + ·) 0 : Nat) : ℚ) / (bins.length : ℚ)
  if averageVolume > BARGE_IN_THRESHOLD then
    let s₁ := { s with monitoring := false }
    if s₁.isPlaying then
      let s₂ := { s₁ with playbackCtxOpen := false, audioQueue := [], isPlaying := false }
      ⟨s₂, if s₂.socketOpen then [OutMsg.interrupt] else [], true, false⟩
    else
      ⟨s₁, [], true, false⟩
  else
    ⟨{ s with monitoring := true }, [], false, true⟩

/-! ## Playback lifecycle (claim C9): the events that start or retire a
playback session, reduced to the counters the spec's test asks for
("resource-release callback count equals start count") -/

/-- Events that touch the playback lifecycle: an `audio` chunk arriving,
`llm_response_end` invoking `processAndPlayAudioQueue` (with the decode
outcome of `decodeAudioData`), the `sourceNode.onended` callback, and the
interrupt path (barge-in or a new recording started while playing). -/
inductive PEv
  | audioChunk (b : List Nat)
  | responseEnd (decodeOk : Bool)
  | ended
  | interrupt
deriving DecidableEq, Repr

/-- Playback bookkeeping: `startCount` counts `sourceNode.start()` calls,
`retireCount` counts retirements (the `onended` callback, or the forced
`playbackAudioContext.close()` of the interrupt path). -/
structure PbState where
  audioQueue : List (List Nat)
  isPlaying : Bool
  startCount : Nat
  retireCount : Nat
deriving DecidableEq, Repr

/-- One playback-lifecycle transition. `responseEnd` follows
`processAndPlayAudioQueue`: nothing happens unless the queue is non-empty
and no playback is active; on a successful decode the source node starts,
on a decode error `isPlaying` is reset without any node starting. A stale
`ended` callback arriving when nothing is playing is a no-op. -/
def pstep (s : PbState) (e : PEv) : PbState :=
  match e with
  | .audioChunk b => { s with audioQueue := s.audioQueue ++ [b] }
  | .responseEnd decodeOk =>
      if s.audioQueue.isEmpty then s
      else if s.isPlaying then s
      else if decodeOk then
        { s with audioQueue := [], isPlaying := true, startCount := s.startCount + 1 }
      else
        { s with audioQueue := [], isPlaying := false }
  | .ended =>
      if s.isPlaying then
        { s with isPlaying := false, retireCount := s.retireCount + 1 }
      else s
  | .interrupt =>
      if s.isPlaying then
        { s with isPlaying := false, audioQueue := [], retireCount := s.retireCount + 1 }
      else s

/-- Initial playback state. -/
def pbInit : PbState := ⟨[], false, 0, 0⟩

/-- The playback lifecycle state after a sequence of events. -/
def runPb (evs : List PEv) : PbState := evs.foldl pstep pbInit

/-- Inductive invariant of the playback lifecycle: while playing, exactly
one started playback is unretired; otherwise every started playback has
been retired. -/
def PbInv (s : PbState) : Prop :=
  (s.isPlaying = true → s.startCount = s.retireCount + 1) ∧
  (s.isPlaying = false → s.startCount = s.retireCount)

/-! ## Recorder worklet (recorder-processor, `RecorderProcessor`) -/

namespace RecorderProcessor

/-- `this.bufferSize = 2048`. -/
def bufferSize : Nat := 2048

/-- The worklet's accumulation state: the samples written into
`this.buffer` since the last reset, in order; its length is
`this.bufferIndex` (every slot below `bufferIndex` has been overwritten
since the last post, so the posted frame is exactly this list). -/
structure RecState where
  pending : List ℚ
deriving Repr

/-- One `process(inputs, ...)` call. `inputChannel = none` models
`inputs[0][0]` being absent (`if (!inputChannel) return true`). The call
copies at most the remaining space from the input (samples beyond it are
dropped), and posts `floatTo16BitPCM(this.buffer)` exactly when the
buffer has filled, resetting `bufferIndex`. -/
def process (st : RecState) (inputChannel : Option (List ℚ)) :
    RecState × Option (List Nat) :=
  match inputChannel with
  | none => (st, none)
  | some ch =>
      let remainingSpace := bufferSize - st.pending.length
      let accepted := if ch.length > remainingSpace then ch.take remainingSpace else ch
      let pending := st.pending ++ accepted
      if pending.length ≥ bufferSize then (⟨[]⟩, some (floatTo16BitPCM pending))
      else (⟨pending⟩, none)

/-- The constructor's state: `bufferIndex = 0`. -/
def recInit : RecState := ⟨[]⟩

end RecorderProcessor

/-! ## Helper lemmas: the frame encoder -/

/-- The claim's per-sample encoding and the code's agree. -/
theorem spec_encode_eq (x : ℚ) : specEncodeSample x = pcmSampleValue x := by
  simp only [specEncodeSample, pcmSampleValue, scalePCM, clamp]
  split <;> rfl

/-- Clamping is the identity on in-range samples. -/
theorem clamp_eq (x : ℚ) (h1 : -1 ≤ x) (h2 : x ≤ 1) : clamp x = x := by
  rw [clamp, min_eq_right h2, max_eq_right h1]

/-- The encoder produces two bytes per sample. -/
theorem floatTo16BitPCM_length (xs : List ℚ) :
    (floatTo16BitPCM xs).length = 2 * xs.length := by
  induction xs with
  | nil => rfl
  | cons x t ih =>
      simp [floatTo16BitPCM, int16Bytes] at ih ⊢
      omega

/-- The bytes at offsets `2*i` and `2*i+1` of the encoded buffer are the
little-endian two's-complement bytes of sample `i`'s stored value. -/
theorem floatTo16BitPCM_getD (xs : List ℚ) (i : Nat) (h : i < xs.length) :
    (floatTo16BitPCM xs).getD (2 * i) 0 =
        ((pcmSampleValue (xs.getD i 0)) % 65536).toNat % 256 ∧
      (floatTo16BitPCM xs).getD (2 * i + 1) 0 =
        ((pcmSampleValue (xs.getD i 0)) % 65536).toNat / 256 := by
  induction xs generalizing i with
  | nil => simp at h
  | cons x t ih =>
      cases i with
      | zero => constructor <;> rfl
      | succ j =>
          have hj : j < t.length := by simpa using h
          have := ih j hj
          simpa [floatTo16BitPCM, int16Bytes, Nat.mul_succ, Nat.succ_mul] using this

/-- Thanks to the clamp, every stored sample value is a signed 16-bit
integer. -/
theorem pcmSampleValue_bounds (x : ℚ) :
    -32768 ≤ pcmSampleValue x ∧ pcmSampleValue x ≤ 32767 := by
  have hc1 : -1 ≤ clamp x := le_max_left _ _
  have hc2 : clamp x ≤ 1 := max_le (by norm_num) (min_le_left _ _)
  rw [pcmSampleValue, scalePCM]
  split_ifs with hneg
  · have hq : clamp x * 32768 < 0 := mul_neg_of_neg_of_pos hneg (by norm_num)
    rw [jsTruncate, if_pos hq]
    have hub : -(clamp x * 32768) ≤ 32768 := by nlinarith
    have h1' : (⌊-(clamp x * 32768)⌋ : ℚ) ≤ 32768 := le_trans (Int.floor_le _) hub
    have h2' : 0 ≤ ⌊-(clamp x * 32768)⌋ := Int.floor_nonneg.2 (by linarith)
    constructor
    · have : ⌊-(clamp x * 32768)⌋ ≤ 32768 := by exact_mod_cast h1'
      omega
    · omega
  · push_neg at hneg
    have hq : ¬ clamp x * 32767 < 0 := not_lt.2 (mul_nonneg hneg (by norm_num))
    rw [jsTruncate, if_neg hq]
    have hub : clamp x * 32767 ≤ 32767 := by nlinarith
    have h1' : (⌊clamp x * 32767⌋ : ℚ) ≤ 32767 := le_trans (Int.floor_le _) hub
    have h2' : 0 ≤ ⌊clamp x * 32767⌋ := Int.floor_nonneg.2 (by linarith)
    constructor
    · omega
    · exact_mod_cast h1'

/-- Reading sample `i` back from the encoded buffer recovers its stored
signed value. -/
theorem readInt16LE_pcm (xs : List ℚ) (i : Nat) (h : i < xs.length) :
    readInt16LE (floatTo16BitPCM xs) i = pcmSampleValue (xs.getD i 0) := by
  obtain ⟨hlo, hhi⟩ := floatTo16BitPCM_getD xs i h
  obtain ⟨hb1, hb2⟩ := pcmSampleValue_bounds (xs.getD i 0)
  simp only [readInt16LE, hlo, hhi]
  split_ifs <;> omega

/-- Per-sample round-trip estimate: encode-then-decode is within one
quantization step of the non-negative scale, `1/32767`. -/
theorem pcm_roundtrip (x : ℚ) (h1 : -1 ≤ x) (h2 : x ≤ 1) :
    |decodePCMSample (pcmSampleValue x) - x| ≤ 1 / 32767 := by
  rw [pcmSampleValue, clamp_eq x h1 h2]
  rcases lt_or_le x 0 with hx | hx
  · have hscale : scalePCM x = x * 32768 := if_pos hx
    have hq : x * 32768 < 0 := mul_neg_of_neg_of_pos hx (by norm_num)
    rw [hscale, jsTruncate, if_pos hq]
    set m : ℤ := ⌊-(x * 32768)⌋ with hm
    have hm0 : 0 ≤ m := Int.floor_nonneg.2 (by linarith)
    have hmle : (m : ℚ) ≤ -(x * 32768) := Int.floor_le _
    have hmlt : -(x * 32768) < (m : ℚ) + 1 := by
      have := Int.lt_floor_add_one (-(x * 32768))
      push_cast at this
      exact this
    rcases eq_or_lt_of_le hm0 with hm0' | hm0'
    · rw [decodePCMSample, ← hm0']
      simp only [neg_zero, Int.cast_zero]
      rw [if_neg (by omega)]
      have hxlt : -x < 1 / 32768 := by
        rw [← hm0'] at hmlt
        push_cast at hmlt
        linarith
      rw [zero_div, zero_sub, abs_neg, abs_of_nonpos (le_of_lt hx)]
      linarith
    · rw [decodePCMSample, if_pos (by omega)]
      have habs : |(((-m : ℤ) : ℚ)) / 32768 - x| = ((-m : ℤ) : ℚ) / 32768 - x := by
        apply abs_of_nonneg
        push_cast
        have : (m : ℚ) ≤ -(x * 32768) := hmle
        nlinarith
      rw [habs]
      push_cast
      nlinarith
  · have hscale : scalePCM x = x * 32767 := if_neg (by linarith)
    have hq : ¬ x * 32767 < 0 := not_lt.2 (mul_nonneg hx (by norm_num))
    rw [hscale, jsTruncate, if_neg hq]
    have hv0 : 0 ≤ ⌊x * 32767⌋ := Int.floor_nonneg.2 (by linarith)
    rw [decodePCMSample, if_neg (by omega)]
    have hle : ((⌊x * 32767⌋ : ℤ) : ℚ) ≤ x * 32767 := Int.floor_le _
    have hlt : x * 32767 < ((⌊x * 32767⌋ : ℤ) : ℚ) + 1 := Int.lt_floor_add_one _
    rw [abs_sub_comm, abs_of_nonneg (by linarith)]
    linarith

/-! ## Helper lemmas: the WAV container -/

/-- Fully unfolded byte layout of `createWavFile`. -/
theorem wav_shape (p : List Nat) :
    createWavFile p =
      82 :: 73 :: 70 :: 70 ::
      (36 + p.length) % 256 :: (36 + p.length) / 256 % 256 ::
      (36 + p.length) / 65536 % 256 :: (36 + p.length) / 16777216 % 256 ::
      87 :: 65 :: 86 :: 69 ::
      102 :: 109 :: 116 :: 32 ::
      16 :: 0 :: 0 :: 0 ::
      1 :: 0 ::
      1 :: 0 ::
      68 :: 172 :: 0 :: 0 ::
      136 :: 88 :: 1 :: 0 ::
      2 :: 0 ::
      16 :: 0 ::
      100 :: 97 :: 116 :: 97 ::
      p.length % 256 :: p.length / 256 % 256 ::
      p.length / 65536 % 256 :: p.length / 16777216 % 256 :: p := by
  simp [createWavFile, writeString, u16le, u32le, sampleRate, numChannels,
    bitsPerSample, blockAlign, byteRate]

/-! ## Helper lemmas: turn assembly -/

/-- The element freshly appended at the end of a list sits at the old
length. -/
theorem getD_append_length {α : Type} (l : List α) (a d : α) :
    (l ++ [a]).getD l.length d = a := by
  induction l with
  | nil => rfl
  | cons x t ih => simpa using ih

/-- Setting the freshly appended last element replaces it. -/
theorem set_append_length {α : Type} (l : List α) (a b : α) :
    (l ++ [a]).set l.length b = l ++ [b] := by
  induction l with
  | nil => rfl
  | cons x t ih => simp [ih]

/-- Runs decompose along event-list structure. -/
theorem runTurn_nil (s : ClientState) : runTurn s [] = s := rfl

/-- Processing a cons is one step followed by the rest. -/
theorem runTurn_cons (s : ClientState) (e : InEvent) (l : List InEvent) :
    runTurn s (e :: l) = runTurn (step s e) l := rfl

/-- Processing a single event is one step. -/
theorem runTurn_single (s : ClientState) (e : InEvent) : runTurn s [e] = step s e := rfl

/-- Processing a concatenation processes the pieces in order. -/
theorem runTurn_append (s : ClientState) (l1 l2 : List InEvent) :
    runTurn s (l1 ++ l2) = runTurn (runTurn s l1) l2 := by
  simp only [runTurn]
  exact List.foldl_append step s l1 l2

/-- Non-final transcript events leave the state untouched. -/
theorem run_nonfinal (s : ClientState) (ts : List String) :
    runTurn s (ts.map (InEvent.transcript · false)) = s := by
  induction ts with
  | nil => rfl
  | cons x t ih => simpa [runTurn, step] using ih

/-- Streaming chunks into an open span appends their concatenation to the
span's text. -/
theorem run_chunks_open (m : List Msg) (r : Role) (x : String) (rest : List String)
    (tt : Option String) (aq : List (List Nat)) (ip : Bool) (pp : Option (List Nat)) :
    runTurn ⟨m ++ [⟨r, x⟩], some m.length, tt, aq, ip, pp⟩ (rest.map InEvent.llmResponse) =
      ⟨m ++ [⟨r, x ++ strConcat rest⟩], some m.length, tt, aq, ip, pp⟩ := by
  induction rest generalizing x with
  | nil => simp [runTurn, strConcat, String.append_empty]
  | cons c crest ih =>
      have hstep : step ⟨m ++ [⟨r, x⟩], some m.length, tt, aq, ip, pp⟩
          (InEvent.llmResponse c) = ⟨m ++ [⟨r, x ++ c⟩], some m.length, tt, aq, ip, pp⟩ := by
        simp [step, spanAppend, getD_append_length, set_append_length]
      calc runTurn ⟨m ++ [⟨r, x⟩], some m.length, tt, aq, ip, pp⟩
            ((c :: crest).map InEvent.llmResponse)
          = runTurn ⟨m ++ [⟨r, x ++ c⟩], some m.length, tt, aq, ip, pp⟩
              (crest.map InEvent.llmResponse) := by
            simp [runTurn, hstep]
        _ = ⟨m ++ [⟨r, (x ++ c) ++ strConcat crest⟩], some m.length, tt, aq, ip, pp⟩ := ih _
        _ = ⟨m ++ [⟨r, x ++ strConcat (c :: crest)⟩], some m.length, tt, aq, ip, pp⟩ := by
            rw [String.append_assoc]
            rfl

/-- Streaming chunks with no open span creates the assistant message and
fills it with the chunks' concatenation. -/
theorem run_chunks_cons (m : List Msg) (c : String) (rest : List String)
    (tt : Option String) (aq : List (List Nat)) (ip : Bool) (pp : Option (List Nat)) :
    runTurn ⟨m, none, tt, aq, ip, pp⟩ ((c :: rest).map InEvent.llmResponse) =
      ⟨m ++ [⟨Role.assistant, strConcat (c :: rest)⟩], some m.length, tt, aq, ip, pp⟩ := by
  have hstep : step ⟨m, none, tt, aq, ip, pp⟩ (InEvent.llmResponse c) =
      ⟨m ++ [⟨Role.assistant, c⟩], some m.length, tt, aq, ip, pp⟩ := by
    simp [step]
  show runTurn _ (InEvent.llmResponse c :: rest.map InEvent.llmResponse) = _
  simp only [runTurn, List.foldl_cons]
  rw [show (step ⟨m, none, tt, aq, ip, pp⟩ (InEvent.llmResponse c)) =
      ⟨m ++ [⟨Role.assistant, c⟩], some m.length, tt, aq, ip, pp⟩ from hstep]
  exact run_chunks_open m Role.assistant c rest tt aq ip pp

/-- Audio events append their chunks to the queue in arrival order. -/
theorem run_audio (s : ClientState) (as' : List (List Nat)) :
    runTurn s (as'.map InEvent.audio) =
      { s with audioQueue := s.audioQueue ++ as' } := by
  induction as' generalizing s with
  | nil => simp [runTurn]
  | cons a t ih =>
      rw [List.map_cons, runTurn_cons,
        show step s (InEvent.audio a) = { s with audioQueue := s.audioQueue ++ [a] } from rfl,
        ih]
      simp

/-- The sequential copy of `concatBuffers` is list concatenation. -/
theorem concatBuffers_eq_flatten (l : List (List Nat)) : concatBuffers l = l.flatten := by
  suffices h : ∀ acc : List Nat, l.foldl (· ++ ·) acc = acc ++ l.flatten by
    simpa using h []
  induction l with
  | nil => simp
  | cons x t ih => intro acc; simp [concatBuffers, ih, List.append_assoc]

/-- `llm_response_end` on a non-empty queue starts playback of the
queue's concatenation and clears it. -/
theorem end_plays (m : List Msg) (sp : Option Nat) (tt : Option String)
    (as' : List (List Nat)) (ha : as' ≠ []) :
    step ⟨m, sp, tt, as', false, none⟩ InEvent.llmResponseEnd =
      ⟨m, none, tt, [], true, some as'.flatten⟩ := by
  have hne : as'.isEmpty = false := by
    cases as' with
    | nil => exact absurd rfl ha
    | cons a t => rfl
  simp [step, processAndPlayAudioQueue, hne, concatBuffers_eq_flatten]

/-! ## Helper lemmas: playback lifecycle -/

/-- Every playback-lifecycle transition preserves the counter invariant. -/
theorem pstep_inv (s : PbState) (e : PEv) (h : PbInv s) : PbInv (pstep s e) := by
  obtain ⟨h1, h2⟩ := h
  cases e <;> simp only [pstep] <;> (try split_ifs) <;>
    constructor <;> intro hb <;> simp_all

/-- The counter invariant holds in every reachable playback state. -/
theorem runPb_inv (evs : List PEv) : PbInv (runPb evs) := by
  suffices h : ∀ s, PbInv s → PbInv (evs.foldl pstep s) by
    exact h pbInit ⟨by simp [pbInit], fun _ => rfl⟩
  induction evs with
  | nil => exact fun s hs => hs
  | cons e t ih => exact fun s hs => ih _ (pstep_inv s e hs)

/-! ## Claims -/

/-- C2: `floatTo16BitPCM` returns a byte buffer of exactly 2 bytes per
input sample, where sample `i` is clamped to [-1,1], scaled (negatives by
32768, non-negatives by 32767), and written little-endian at offset `2*i`
as a signed 16-bit integer. -/
theorem frame_encoder_C2 (xs : List ℚ) (i : Nat) (h : i < xs.length) :
    (floatTo16BitPCM xs).length = 2 * xs.length ∧
    (floatTo16BitPCM xs).getD (2 * i) 0 = specLowByte (xs.getD i 0) ∧
    (floatTo16BitPCM xs).getD (2 * i + 1) 0 = specHighByte (xs.getD i 0) := by
  refine ⟨floatTo16BitPCM_length xs, ?_, ?_⟩
  · simp only [specLowByte, spec_encode_eq]
    exact (floatTo16BitPCM_getD xs i h).1
  · simp only [specHighByte, spec_encode_eq]
    exact (floatTo16BitPCM_getD xs i h).2

/-- Witness for C2 at the one-sample buffer `[0]`. -/
theorem frame_encoder_C2_witness :
    (0 < ([(0 : ℚ)] : List ℚ).length) ∧
    ((floatTo16BitPCM [(0 : ℚ)]).length = 2 * ([(0 : ℚ)] : List ℚ).length ∧
     (floatTo16BitPCM [(0 : ℚ)]).getD (2 * 0) 0 = specLowByte (([(0 : ℚ)] : List ℚ).getD 0 0) ∧
     (floatTo16BitPCM [(0 : ℚ)]).getD (2 * 0 + 1) 0 = specHighByte (([(0 : ℚ)] : List ℚ).getD 0 0)) :=
  ⟨by decide, frame_encoder_C2 [(0 : ℚ)] 0 (by decide)⟩

/-- C3 counterexample: the claim's ±1/32768 bound fails. At the in-range
sample `99999 / 3276700000` (≈ 0.99999/32767, whose scaled value
0.99999 truncates to the stored value 0), the decoded sample 0 is farther
than 1/32768 from the original. -/
theorem roundtrip_C3_counterexample :
    (-1 ≤ (99999 : ℚ) / 3276700000 ∧ (99999 : ℚ) / 3276700000 ≤ 1) ∧
    1 / 32768 <
      |decodePCMSample (readInt16LE (floatTo16BitPCM [(99999 : ℚ) / 3276700000]) 0) -
        (99999 : ℚ) / 3276700000| := by
  refine ⟨⟨by norm_num, by norm_num⟩, ?_⟩
  have hval : pcmSampleValue ((99999 : ℚ) / 3276700000) = 0 := by
    rw [pcmSampleValue, clamp, min_eq_right (by norm_num), max_eq_right (by norm_num),
      scalePCM, if_neg (by norm_num), jsTruncate, if_neg (by norm_num)]
    norm_num
  have hlist : floatTo16BitPCM [(99999 : ℚ) / 3276700000] = [0, 0] := by
    rw [floatTo16BitPCM]
    simp [hval, int16Bytes]
  rw [hlist]
  have hread : readInt16LE [0, 0] 0 = 0 := rfl
  rw [hread]
  have hdec : decodePCMSample 0 = 0 := by
    rw [decodePCMSample, if_neg (by norm_num)]
    norm_num
  rw [hdec, zero_sub, abs_neg, abs_of_nonneg (by norm_num)]
  norm_num

/-- C3 amended: for every sample array with values in [-1,1], encoding
with `floatTo16BitPCM` and decoding each stored 16-bit value back
reproduces every sample within one quantization step of the encoder's
non-negative scale, i.e. within ±1/32767 (the truncating encoder can be
off by almost a full step, and the non-negative step is 1/32767, so the
claimed ±1/32768 is not achievable). -/
theorem roundtrip_C3_amended (xs : List ℚ) (hb : ∀ x ∈ xs, -1 ≤ x ∧ x ≤ 1) (i : Nat)
    (hi : i < xs.length) :
    |decodePCMSample (readInt16LE (floatTo16BitPCM xs) i) - xs.getD i 0| ≤ 1 / 32767 := by
  rw [readInt16LE_pcm xs i hi]
  have hmem : xs.getD i 0 ∈ xs := by
    rw [List.getD_eq_getElem xs 0 hi]
    exact List.getElem_mem hi
  obtain ⟨h1, h2⟩ := hb _ hmem
  exact pcm_roundtrip _ h1 h2

/-- Witness for the amended C3 at the one-sample buffer `[0]`. -/
theorem roundtrip_C3_amended_witness :
    ((∀ x ∈ ([(0 : ℚ)] : List ℚ), -1 ≤ x ∧ x ≤ 1) ∧ 0 < ([(0 : ℚ)] : List ℚ).length) ∧
    |decodePCMSample (readInt16LE (floatTo16BitPCM [(0 : ℚ)]) 0) -
      ([(0 : ℚ)] : List ℚ).getD 0 0| ≤ 1 / 32767 :=
  ⟨⟨by norm_num, by decide⟩,
   roundtrip_C3_amended [(0 : ℚ)] (by norm_num) 0 (by decide)⟩

/-- C4: for a non-empty payload of `n` bytes (with `36 + n` within the
unsigned 32-bit range its header field can hold), `createWavFile` returns
`44 + n` bytes: a RIFF/WAVE header whose byte segments declare RIFF size
`36 + n` (read back as a number by `readU32le`), fmt chunk size 16, PCM
format code 1, channel count 1, sample rate 44100, byte rate 88200, block
alignment 2, 16 bits per sample and data size `n`, followed by the
payload unchanged at offset 44. -/
theorem wav_container_C4 (p : List Nat) (hp : p ≠ [])
    (hsz : 36 + p.length < 4294967296) :
    (createWavFile p).length = 44 + p.length ∧
    (createWavFile p).take 4 = writeString "RIFF" ∧
    ((createWavFile p).drop 4).take 4 = u32le (36 + p.length) ∧
    readU32le ((createWavFile p).drop 4) 0 = 36 + p.length ∧
    ((createWavFile p).drop 8).take 4 = writeString "WAVE" ∧
    ((createWavFile p).drop 12).take 4 = writeString "fmt " ∧
    ((createWavFile p).drop 16).take 4 = u32le 16 ∧
    ((createWavFile p).drop 20).take 2 = u16le 1 ∧
    ((createWavFile p).drop 22).take 2 = u16le numChannels ∧
    ((createWavFile p).drop 24).take 4 = u32le sampleRate ∧
    ((createWavFile p).drop 28).take 4 = u32le byteRate ∧
    ((createWavFile p).drop 32).take 2 = u16le blockAlign ∧
    ((createWavFile p).drop 34).take 2 = u16le bitsPerSample ∧
    ((createWavFile p).drop 36).take 4 = writeString "data" ∧
    ((createWavFile p).drop 40).take 4 = u32le p.length ∧
    readU32le ((createWavFile p).drop 40) 0 = p.length ∧
    (createWavFile p).drop 44 = p := by
  have hs := wav_shape p
  have h4 : (createWavFile p).drop 4 =
      (36 + p.length) % 256 :: (36 + p.length) / 256 % 256 ::
      (36 + p.length) / 65536 % 256 :: (36 + p.length) / 16777216 % 256 ::
      87 :: 65 :: 86 :: 69 :: 102 :: 109 :: 116 :: 32 :: 16 :: 0 :: 0 :: 0 ::
      1 :: 0 :: 1 :: 0 :: 68 :: 172 :: 0 :: 0 :: 136 :: 88 :: 1 :: 0 ::
      2 :: 0 :: 16 :: 0 :: 100 :: 97 :: 116 :: 97 ::
      p.length % 256 :: p.length / 256 % 256 ::
      p.length / 65536 % 256 :: p.length / 16777216 % 256 :: p := by
    rw [hs]
    rfl
  have h40 : (createWavFile p).drop 40 =
      p.length % 256 :: p.length / 256 % 256 ::
      p.length / 65536 % 256 :: p.length / 16777216 % 256 :: p := by
    rw [hs]
    rfl
  refine ⟨?_, ?_, ?_, ?_, ?_, ?_, ?_, ?_, ?_, ?_, ?_, ?_, ?_, ?_, ?_, ?_, ?_⟩
  · rw [hs]
    simp
    omega
  · rw [hs]
    simp [writeString]
  · rw [h4]
    simp [u32le]
  · rw [h4]
    simp [readU32le]
    omega
  · rw [hs]
    simp [writeString]
  · rw [hs]
    simp [writeString]
  · rw [hs]
    simp [u32le]
  · rw [hs]
    simp [u16le]
  · rw [hs]
    simp [u16le, numChannels]
  · rw [hs]
    simp [u32le, sampleRate]
  · rw [hs]
    simp [u32le, byteRate, blockAlign, sampleRate, numChannels, bitsPerSample]
  · rw [hs]
    simp [u16le, blockAlign, numChannels, bitsPerSample]
  · rw [hs]
    simp [u16le, bitsPerSample]
  · rw [hs]
    simp [writeString]
  · rw [h40]
    simp [u32le]
  · rw [h40]
    simp [readU32le]
    omega
  · rw [hs]
    rfl

/-- Witness for C4 at the one-byte payload `[7]`. -/
theorem wav_container_C4_witness :
    (([7] : List Nat) ≠ [] ∧ 36 + ([7] : List Nat).length < 4294967296) ∧
    ((createWavFile [7]).length = 44 + ([7] : List Nat).length ∧
     (createWavFile [7]).take 4 = writeString "RIFF" ∧
     ((createWavFile [7]).drop 4).take 4 = u32le (36 + ([7] : List Nat).length) ∧
     readU32le ((createWavFile [7]).drop 4) 0 = 36 + ([7] : List Nat).length ∧
     ((createWavFile [7]).drop 8).take 4 = writeString "WAVE" ∧
     ((createWavFile [7]).drop 12).take 4 = writeString "fmt " ∧
     ((createWavFile [7]).drop 16).take 4 = u32le 16 ∧
     ((createWavFile [7]).drop 20).take 2 = u16le 1 ∧
     ((createWavFile [7]).drop 22).take 2 = u16le numChannels ∧
     ((createWavFile [7]).drop 24).take 4 = u32le sampleRate ∧
     ((createWavFile [7]).drop 28).take 4 = u32le byteRate ∧
     ((createWavFile [7]).drop 32).take 2 = u16le blockAlign ∧
     ((createWavFile [7]).drop 34).take 2 = u16le bitsPerSample ∧
     ((createWavFile [7]).drop 36).take 4 = writeString "data" ∧
     ((createWavFile [7]).drop 40).take 4 = u32le ([7] : List Nat).length ∧
     readU32le ((createWavFile [7]).drop 40) 0 = ([7] : List Nat).length ∧
     (createWavFile [7]).drop 44 = [7]) :=
  ⟨⟨by decide, by decide⟩, wav_container_C4 [7] (by decide) (by decide)⟩

/-- C1: a turn-shaped event sequence (non-final transcripts, one final
transcript, response chunks, audio chunks, `llm_response_end`), processed
from a quiescent state with session log `m0`, gives: the displayed final
transcript is the last transcript event's text, the displayed response
text is the concatenation of the chunks in arrival order (no assistant
message at all when there are no chunks), and the payload handed to
playback is the byte-concatenation of all audio chunks in arrival order
with the queue left empty (nothing dropped or reordered). The final
transcript must be non-empty (`displayMessage` skips empty text) and at
least one audio chunk must arrive (an empty queue starts no playback). -/
theorem turn_assembly_C1 (m0 : List Msg) (ts : List String) (t : String)
    (cs : List String) (as' : List (List Nat)) (ht : t ≠ "") (ha : as' ≠ []) :
    ((cs = [] → (runTurn (turnStart m0) (turnEvents ts t cs as')).messages =
        m0 ++ [⟨Role.user, t⟩]) ∧
     (cs ≠ [] → (runTurn (turnStart m0) (turnEvents ts t cs as')).messages =
        m0 ++ [⟨Role.user, t⟩, ⟨Role.assistant, strConcat cs⟩])) ∧
    (runTurn (turnStart m0) (turnEvents ts t cs as')).playedPayload = some as'.flatten ∧
    (runTurn (turnStart m0) (turnEvents ts t cs as')).audioQueue = [] := by
  have h2 : runTurn (turnStart m0) [InEvent.transcript t true] =
      ⟨m0 ++ [⟨Role.user, t⟩], none, none, [], false, none⟩ := by
    rw [runTurn_single]
    simp [step, turnStart, displayMessage, ht]
  cases cs with
  | nil =>
      have hrun : runTurn (turnStart m0) (turnEvents ts t [] as') =
          ⟨m0 ++ [⟨Role.user, t⟩], none, none, [], true, some as'.flatten⟩ := by
        unfold turnEvents
        rw [runTurn_append, runTurn_append, runTurn_append, runTurn_append,
          run_nonfinal, h2]
        simp only [List.map_nil]
        rw [runTurn_nil, run_audio, runTurn_single]
        simp only [List.nil_append]
        exact end_plays _ _ _ _ ha
      rw [hrun]
      refine ⟨⟨fun _ => rfl, fun hc => absurd rfl hc⟩, rfl, rfl⟩
  | cons c rest =>
      have hrun : runTurn (turnStart m0) (turnEvents ts t (c :: rest) as') =
          ⟨(m0 ++ [⟨Role.user, t⟩]) ++ [⟨Role.assistant, strConcat (c :: rest)⟩],
            none, none, [], true, some as'.flatten⟩ := by
        unfold turnEvents
        rw [runTurn_append, runTurn_append, runTurn_append, runTurn_append,
          run_nonfinal, h2, run_chunks_cons, run_audio, runTurn_single]
        simp only [List.nil_append]
        exact end_plays _ _ _ _ ha
      rw [hrun]
      refine ⟨⟨fun hc => by simp at hc, fun _ => ?_⟩, rfl, rfl⟩
      simp

/-- Witness for C1: one non-final transcript, final transcript `hi`, two
response chunks, two audio chunks. -/
theorem turn_assembly_C1_witness :
    (("hi" : String) ≠ "" ∧ ([[1], [2, 3]] : List (List Nat)) ≠ []) ∧
    (((["x", "y"] : List String) = [] →
        (runTurn (turnStart []) (turnEvents ["a"] "hi" ["x", "y"] [[1], [2, 3]])).messages =
          [] ++ [⟨Role.user, "hi"⟩]) ∧
      ((["x", "y"] : List String) ≠ [] →
        (runTurn (turnStart []) (turnEvents ["a"] "hi" ["x", "y"] [[1], [2, 3]])).messages =
          [] ++ [⟨Role.user, "hi"⟩, ⟨Role.assistant, strConcat ["x", "y"]⟩])) ∧
    (runTurn (turnStart []) (turnEvents ["a"] "hi" ["x", "y"] [[1], [2, 3]])).playedPayload =
      some ([[1], [2, 3]] : List (List Nat)).flatten ∧
    (runTurn (turnStart []) (turnEvents ["a"] "hi" ["x", "y"] [[1], [2, 3]])).audioQueue = [] :=
  ⟨⟨by decide, by decide⟩,
   turn_assembly_C1 [] ["a"] "hi" ["x", "y"] [[1], [2, 3]] (by decide) (by decide)⟩

/-- C5 (code bug): the `reconnect` transition (`socket.onclose` →
`initializeSession` → `connectWebSocket`/`onopen`) resends the session id
but touches neither `audioQueue` nor the span state, so the partial turn
is NOT discarded: in the drop-mid-turn scenario (final transcript, one
audio fragment `[1,2]`, drop, reconnect with history, then a fresh turn
whose only fragment is `[3]`), the next playback's payload is `[1,2,3]` —
it still contains the interrupted turn's fragment — instead of `[3]`. -/
theorem reconnect_retains_turn_C5 :
    (runTurn clientInit reconnectScenario).playedPayload = some [1, 2, 3] ∧
    (runTurn clientInit reconnectScenario).playedPayload ≠ some [3] := by
  decide

/-- C6 (code bug): `socket.onmessage` runs `JSON.parse(event.data)` with
no try/catch, so a malformed payload makes the SyntaxError escape the
handler instead of being logged as a `ProtocolError` and dropped. -/
theorem malformed_message_C6 :
    onmessageHandler clientInit (RawMessage.malformed "not json") =
      Except.error "not json" := rfl

/-- C7 counterexample: a transcript event with `is_final = false` is
ignored by the handler (the `if (result.is_final)` branch has no else and
`tempTranscriptSpan` is never created), so after receiving non-final text
`hello` the state is unchanged and no live preview equals `hello`. -/
theorem transcript_preview_C7_counterexample :
    runTurn clientInit [InEvent.transcript "hello" false] = clientInit ∧
    (runTurn clientInit [InEvent.transcript "hello" false]).tempTranscript ≠ some "hello" := by
  decide

/-- C7 amended: non-final transcript events leave the client state,
including the live preview span, entirely unchanged (they are ignored,
not shown); the `is_final = true` event removes any leftover preview span
and, when its text is non-empty, appends the frozen transcript to the
durable conversation log. -/
theorem transcript_preview_C7_amended (s : ClientState) (t : String) :
    step s (InEvent.transcript t false) = s ∧
    (step s (InEvent.transcript t true)).tempTranscript = none ∧
    (t ≠ "" → (step s (InEvent.transcript t true)).messages =
      s.messages ++ [⟨Role.user, t⟩]) := by
  refine ⟨rfl, rfl, fun ht => ?_⟩
  simp [step, displayMessage, ht]

/-- Witness for the amended C7 at the fresh state and transcript `hi`. -/
theorem transcript_preview_C7_amended_witness :
    (("hi" : String) ≠ "") ∧
    (step clientInit (InEvent.transcript "hi" false) = clientInit ∧
     (step clientInit (InEvent.transcript "hi" true)).tempTranscript = none ∧
     (("hi" : String) ≠ "" → (step clientInit (InEvent.transcript "hi" true)).messages =
        clientInit.messages ++ [⟨Role.user, "hi"⟩])) :=
  ⟨by decide, transcript_preview_C7_amended clientInit "hi"⟩

/-- C8: when a playback is active, the socket is open and the average of
the analyser bins exceeds the threshold (`20 * count < sum` restates
`sum / count > BARGE_IN_THRESHOLD` with `BARGE_IN_THRESHOLD = 20`), the
monitor step stops passive monitoring and schedules no further sample,
closes the playback context, clears the queued fragments, unsets
`isPlaying`, sends exactly the interrupt control message, and starts
recording — all within that one step. -/
theorem barge_in_C8 (bins : List Nat) (s : MonState) (hp : s.isPlaying = true)
    (hs : s.socketOpen = true)
    (hv : 20 * bins.length < bins.foldl (· + ·) 0) :
    (checkVolume bins s).state.monitoring = false ∧
    (checkVolume bins s).scheduledNext = false ∧
    (checkVolume bins s).state.playbackCtxOpen = false ∧
    (checkVolume bins s).state.audioQueue = [] ∧
    (checkVolume bins s).state.isPlaying = false ∧
    (checkVolume bins s).sent = [OutMsg.interrupt] ∧
    (checkVolume bins s).startedRecording = true := by
  have hlen : 0 < bins.length := by
    rcases bins with _ | ⟨b, t⟩
    · simp at hv
    · simp
  have havg : ((bins.foldl (· + ·) 0 : Nat) : ℚ) / (bins.length : ℚ) > BARGE_IN_THRESHOLD := by
    rw [gt_iff_lt, BARGE_IN_THRESHOLD, lt_div_iff₀ (by exact_mod_cast hlen)]
    calc (20 : ℚ) * (bins.length : ℚ) = ((20 * bins.length : Nat) : ℚ) := by push_cast; ring
    _ < ((bins.foldl (· + ·) 0 : Nat) : ℚ) := by exact_mod_cast hv
  simp only [checkVolume, if_pos havg, hp, if_pos, hs, if_true]
  simp [hp, hs]

/-- Witness for C8: a single loud bin of value 21 against threshold 20,
with a playback active and the socket open. -/
theorem barge_in_C8_witness :
    ((⟨true, [[5]], true, true, true⟩ : MonState).isPlaying = true ∧
     (⟨true, [[5]], true, true, true⟩ : MonState).socketOpen = true ∧
     20 * ([21] : List Nat).length < ([21] : List Nat).foldl (· + ·) 0) ∧
    ((checkVolume [21] ⟨true, [[5]], true, true, true⟩).state.monitoring = false ∧
     (checkVolume [21] ⟨true, [[5]], true, true, true⟩).scheduledNext = false ∧
     (checkVolume [21] ⟨true, [[5]], true, true, true⟩).state.playbackCtxOpen = false ∧
     (checkVolume [21] ⟨true, [[5]], true, true, true⟩).state.audioQueue = [] ∧
     (checkVolume [21] ⟨true, [[5]], true, true, true⟩).state.isPlaying = false ∧
     (checkVolume [21] ⟨true, [[5]], true, true, true⟩).sent = [OutMsg.interrupt] ∧
     (checkVolume [21] ⟨true, [[5]], true, true, true⟩).startedRecording = true) :=
  ⟨⟨rfl, rfl, by decide⟩,
   barge_in_C8 [21] ⟨true, [[5]], true, true, true⟩ rfl rfl (by decide)⟩

/-- C9: at most one playback is ever active — in every reachable
lifecycle state the number of started source nodes exceeds the number of
retirements by at most one, and whenever a transition actually starts a
new playback (increments `startCount`), every previously started playback
had already been retired (`startCount = retireCount`), i.e. the first
playback is fully retired before a second begins. -/
theorem single_playback_C9 (evs : List PEv) (e : PEv)
    (h : (pstep (runPb evs) e).startCount = (runPb evs).startCount + 1) :
    (runPb evs).startCount ≤ (runPb evs).retireCount + 1 ∧
    (runPb evs).startCount = (runPb evs).retireCount := by
  obtain ⟨h1, h2⟩ := runPb_inv evs
  generalize hgen : runPb evs = s at *
  have hnp : s.isPlaying = false := by
    cases hb : s.isPlaying
    · rfl
    · exfalso
      cases e <;> simp [pstep, hb] at h
  rw [h2 hnp]
  exact ⟨Nat.le_succ _, rfl⟩

/-- Witness for C9: one queued chunk followed by a successfully decoded
`llm_response_end` starts the first playback. -/
theorem single_playback_C9_witness :
    ((pstep (runPb [PEv.audioChunk [1]]) (PEv.responseEnd true)).startCount =
      (runPb [PEv.audioChunk [1]]).startCount + 1) ∧
    ((runPb [PEv.audioChunk [1]]).startCount ≤ (runPb [PEv.audioChunk [1]]).retireCount + 1 ∧
     (runPb [PEv.audioChunk [1]]).startCount = (runPb [PEv.audioChunk [1]]).retireCount) :=
  ⟨by decide, single_playback_C9 [PEv.audioChunk [1]] (PEv.responseEnd true) (by decide)⟩

/-- C10: one `process` call accepts only as many samples as fit in the
remaining buffer space (`ch.take (bufferSize - pending)`, the rest of the
input is dropped, not carried over), posts a frame exactly when the
buffer becomes exactly full, resetting it, and every posted frame is
`floatTo16BitPCM` of the 2048 buffered samples, hence exactly 4096 bytes. -/
theorem recorder_frames_C10 (st : RecorderProcessor.RecState) (ch : List ℚ)
    (h : st.pending.length ≤ RecorderProcessor.bufferSize) :
    (RecorderProcessor.process st (some ch) =
      if (st.pending ++ ch.take (RecorderProcessor.bufferSize - st.pending.length)).length =
          RecorderProcessor.bufferSize
      then (⟨[]⟩, some (floatTo16BitPCM
        (st.pending ++ ch.take (RecorderProcessor.bufferSize - st.pending.length))))
      else (⟨st.pending ++ ch.take (RecorderProcessor.bufferSize - st.pending.length)⟩, none)) ∧
    (∀ f, (RecorderProcessor.process st (some ch)).2 = some f → f.length = 4096) := by
  have hacc : (if ch.length > RecorderProcessor.bufferSize - st.pending.length
      then ch.take (RecorderProcessor.bufferSize - st.pending.length) else ch) =
      ch.take (RecorderProcessor.bufferSize - st.pending.length) := by
    split
    · rfl
    · next hle => exact (List.take_of_length_le (by omega)).symm
  have hlen : (st.pending ++
      ch.take (RecorderProcessor.bufferSize - st.pending.length)).length ≤
      RecorderProcessor.bufferSize := by
    simp [List.length_take]
    omega
  constructor
  · simp only [RecorderProcessor.process, hacc]
    split
    · next hge => rw [if_pos (by omega)]
    · next hge => rw [if_neg (by omega)]
  · intro f hf
    simp only [RecorderProcessor.process, hacc] at hf
    split at hf
    · next hge =>
        simp only [Option.some.injEq] at hf
        subst hf
        rw [floatTo16BitPCM_length]
        have hb : RecorderProcessor.bufferSize = 2048 := rfl
        omega
    · simp at hf

/-- Witness for C10 at the worklet's initial state and an empty input
block. -/
theorem recorder_frames_C10_witness :
    (RecorderProcessor.recInit.pending.length ≤ RecorderProcessor.bufferSize) ∧
    ((RecorderProcessor.process RecorderProcessor.recInit (some ([] : List ℚ)) =
      if (RecorderProcessor.recInit.pending ++ ([] : List ℚ).take
            (RecorderProcessor.bufferSize - RecorderProcessor.recInit.pending.length)).length =
          RecorderProcessor.bufferSize
      then (⟨[]⟩, some (floatTo16BitPCM (RecorderProcessor.recInit.pending ++
        ([] : List ℚ).take
          (RecorderProcessor.bufferSize - RecorderProcessor.recInit.pending.length))))
      else (⟨RecorderProcessor.recInit.pending ++ ([] : List ℚ).take
        (RecorderProcessor.bufferSize - RecorderProcessor.recInit.pending.length)⟩, none)) ∧
     (∀ f, (RecorderProcessor.process RecorderProcessor.recInit (some ([] : List ℚ))).2 =
        some f → f.length = 4096)) :=
  ⟨by decide, recorder_frames_C10 RecorderProcessor.recInit [] (by decide)⟩

end VoiceFlow
